import Mathlib

/-!
Verification of the contact-submission flow of the `pinhead-analytics`
repository.

Two source files carry all the logic this development is about:

* `src/pages/api/contact.ts` — the `POST` handler of the `/api/contact`
  endpoint.  It parses the request body as JSON, rejects a missing
  (JS-falsy) `email` field, rejects an `email` that fails the regex
  `^[^\s@]+@[^\s@]+\.[^\s@]+$`, and otherwise logs the submission and
  returns a fixed success payload.  Any exception is caught and mapped to
  an HTTP 500 response.

* `src/components/react/ContactForm.tsx` — the React form component.  Its
  state is `formData : {email, message}`, `isSubmitting`, `isSubmitted`
  and `error`; `handleSubmit` drives the submit/response transitions and
  the "Send Another Message" button resets the form.

The embedding below models JSON values, JavaScript truthiness and
string coercion (both are exercised by the handler: `!data.email` and
`emailRegex.test(data.email)`), the handler itself as a total function
from request bodies to responses, and the client component as a step
function on its state.
-/

/-- A JSON value, as produced by `await request.json()`.  JSON numbers are
modelled as integers; no claim in this development depends on fractional
numeric payloads, and integer coercion to string agrees with JavaScript
(`String(123) = "123"`). -/
inductive Json where
  | null : Json
  | bool : Bool → Json
  | num : Int → Json
  | str : String → Json
  | arr : List Json → Json
  | obj : List (String × Json) → Json

/-- JavaScript truthiness of a JSON-decoded value, as tested by
`if (!data.email)` in `contact.ts`: `null`, `false`, `0` and `""` are
falsy; every array and object is truthy.  (`undefined` and `NaN` cannot
appear in a parsed JSON document; the absent-field case is handled by
`jsTruthyOpt` below.) -/
def jsTruthy : Json → Bool
  | .null => false
  | .bool b => b
  | .num n => !(n == 0)
  | .str s => !(s == "")
  | .arr _ => true
  | .obj _ => true

mutual
/-- JavaScript string coercion `String(v)` of a JSON-decoded value, as
performed implicitly by `RegExp.prototype.test` in
`emailRegex.test(data.email)`: numbers print in decimal, arrays join
their elements with `","` (with `null` elements printing as the empty
string), and plain objects print as `[object Object]`. -/
def jsToString : Json → String
  | .null => "null"
  | .bool true => "true"
  | .bool false => "false"
  | .num n => toString n
  | .str s => s
  | .arr xs => jsArrJoin xs
  | .obj _ => "[object Object]"

/-- `Array.prototype.join` with the default `","` separator, used by
JavaScript string coercion of arrays; a `null` element contributes the
empty string. -/
def jsArrJoin : List Json → String
  | [] => ""
  | [Json.null] => ""
  | [x] => jsToString x
  | Json.null :: xs => "," ++ jsArrJoin xs
  | x :: xs => jsToString x ++ "," ++ jsArrJoin xs
end

/-- The character class matched by `\s` in a JavaScript regular
expression: ASCII whitespace, the line and paragraph separators, and the
Unicode space separators. -/
def isJsWhitespace (c : Char) : Bool :=
  c == ' ' || c == '\t' || c == '\n' || c == '\r' || c == '\x0b' ||
  c == '\x0c' || c == '\u00a0' || c == '\u1680' ||
  ('\u2000' ≤ c && c ≤ '\u200a') || c == '\u2028' || c == '\u2029' ||
  c == '\u202f' || c == '\u205f' || c == '\u3000' || c == '\ufeff'

/-- Splitting a character list on the separator `'@'`, in the manner of
`String.prototype.split`: `n` occurrences of `'@'` yield `n + 1` groups,
each free of `'@'`. -/
def splitOnAmp : List Char → List (List Char)
  | [] => [[]]
  | c :: rest =>
    match splitOnAmp rest with
    | [] => if c == '@' then [[], []] else [[c]]
    | g :: gs => if c == '@' then [] :: g :: gs else (c :: g) :: gs

/-- The email regular expression of `contact.ts`,
`^[^\s@]+@[^\s@]+\.[^\s@]+$`, as an executable matcher.  A string is in
the regex language exactly when it splits at a unique `@` into a
non-empty left part and a right part, every character of both parts is
neither whitespace nor `@` (the split guarantees the absence of `@`),
and the right part contains a `.` that is neither its first nor its last
character (the two `[^\s@]+` groups around `\.` may themselves contain
further dots, so only one interior dot is required).
`emailSpecMatch` below states this language as an explicit decomposition
and is proved equivalent in `emailTest_iff_emailSpecMatch`. -/
def emailTest (s : String) : Bool :=
  match splitOnAmp s.data with
  | [l, r] =>
    !l.isEmpty && l.all (fun c => !isJsWhitespace c) &&
    !r.isEmpty && r.all (fun c => !isJsWhitespace c) &&
    (r.drop 1).dropLast.contains '.'
  | _ => false

/-- Property lookup `fields[k]` on a JavaScript object built by
`JSON.parse`: when a key occurs more than once in the source text the
last occurrence wins, and a missing key yields `undefined` (modelled as
`none`). -/
def jsLookup : List (String × Json) → String → Option Json
  | [], _ => none
  | (k', v) :: rest, k =>
    match jsLookup rest k with
    | some r => some r
    | none => if k' == k then some v else none

/-- The member access `data.email` of `contact.ts`.  Reading a property
of `null` throws a `TypeError` (modelled as `Except.error`); reading a
named property of a number, string, boolean or array yields `undefined`
(none of those has an `email` own property); reading from an object is
`jsLookup`. -/
def jsGetField (v : Json) (k : String) : Except Unit (Option Json) :=
  match v with
  | .null => .error ()
  | .obj fields => .ok (jsLookup fields k)
  | _ => .ok none

/-- Truthiness of a possibly-absent field value: `undefined` is falsy. -/
def jsTruthyOpt : Option Json → Bool
  | none => false
  | some v => jsTruthy v

/-- String coercion of a possibly-absent field value:
`String(undefined) = "undefined"`. -/
def jsToStringOpt : Option Json → String
  | none => "undefined"
  | some v => jsToString v

/-- The request body handed to the handler: either `request.json()`
throws (the raw body is not valid JSON), or it yields a JSON value. -/
inductive Body where
  | malformed : Body
  | json : Json → Body

/-- The observable part of a `Response` built by the handler: HTTP
status, the `Content-Type` header, and the body.  The source serializes
the body with `JSON.stringify`; it is kept here as the JSON value being
serialized. -/
structure ContactResponse where
  status : Nat
  contentType : String
  body : Json

/-- The `POST` handler of `src/pages/api/contact.ts`.  In source order:
the `try` block parses the body (a parse failure jumps to the `catch`),
`if (!data.email)` returns 400 "Email address is required",
`if (!emailRegex.test(data.email))` returns 400 "Please enter a valid
email address", otherwise the handler logs the submission (see
`successLogMessage`) and returns 200 with a fixed acknowledgement; the
`catch` block maps any exception — a JSON parse failure, or the
`TypeError` thrown by `data.email` when the body is `null` — to
500 `Internal server error`.  Every response carries
`Content-Type: application/json`. -/
def POST : Body → ContactResponse
  | .malformed =>
    ⟨500, "application/json", .obj [("error", .str "Internal server error")]⟩
  | .json data =>
    match jsGetField data "email" with
    | .error _ =>
      ⟨500, "application/json", .obj [("error", .str "Internal server error")]⟩
    | .ok email =>
      if !jsTruthyOpt email then
        ⟨400, "application/json", .obj [("error", .str "Email address is required")]⟩
      else if !emailTest (jsToStringOpt email) then
        ⟨400, "application/json", .obj [("error", .str "Please enter a valid email address")]⟩
      else
        ⟨200, "application/json",
          .obj [("success", .bool true),
                ("message", .str "Thank you for your interest! We will get back to you soon.")]⟩

/-- The `message` field of the `console.log` record on the success path
of `contact.ts`: `data.message || 'No message provided'` — the message
value itself when truthy, the fixed default otherwise.  (On the success
path `data` is an object, so the field read cannot throw.) -/
def successLogMessage (data : Json) : Json :=
  match jsGetField data "message" with
  | .ok (some v) => if jsTruthy v then v else .str "No message provided"
  | _ => .str "No message provided"

/-- Whether handling the body raises an exception inside the `try` block:
exactly when the raw body fails to parse as JSON, or when the parsed
body is `null` and `data.email` throws a `TypeError`. -/
def requestThrows : Body → Bool
  | .malformed => true
  | .json data =>
    match jsGetField data "email" with
    | .error _ => true
    | .ok _ => false

/-- A request body with the given `email` value and an optional
`message` value, the shape submitted by the contact form. -/
def mkBody (email : Json) (message : Option Json) : Json :=
  .obj (("email", email) ::
    (match message with
     | some v => [("message", v)]
     | none => []))

/-- The endpoint has no state: a batch of requests is answered by
answering each one independently.  (`contact.ts` reads no store and
writes none; its only side effect is a diagnostic log line.) -/
def serve (requests : List Body) : List ContactResponse :=
  requests.map POST

/-- The two text fields held by the contact form component
(`ContactForm.tsx`, `useState<FormData>`). -/
structure FormData where
  email : String
  message : String
deriving DecidableEq

/-- The full client-side state of `ContactForm`: the two fields plus the
three submission flags managed with `useState` (`isSubmitting`,
`isSubmitted`, `error`). -/
structure ClientState where
  formData : FormData
  isSubmitting : Bool
  isSubmitted : Bool
  error : String
deriving DecidableEq

/-- The events that drive the submission flow of `ContactForm`:
`submit` is the start of `handleSubmit`; `okResponse` and
`failResponse` are the two ways the awaited `fetch` can finish
(`response.ok`, versus a non-ok status or a thrown network error —
both of the latter land in the `catch` block); `reset` is the
"Send Another Message" button shown in the submitted view. -/
inductive ClientEvent where
  | submit : ClientEvent
  | okResponse : ClientEvent
  | failResponse : ClientEvent
  | reset : ClientEvent

/-- One step of the `ContactForm` state machine, read off the `useState`
setter calls in `ContactForm.tsx`:
`submit` runs the start of `handleSubmit` (`setIsSubmitting(true)`,
`setError('')`);
`okResponse` runs the `response.ok` branch and the `finally` block
(`setIsSubmitted(true)`, `setIsSubmitting(false)`);
`failResponse` runs the `catch` and `finally` blocks (`setError(...)`,
`setIsSubmitting(false)`), touching neither field;
`reset` runs the "Send Another Message" `onClick`
(`setIsSubmitted(false)`, `setFormData({email: '', message: ''})`). -/
def clientStep (s : ClientState) : ClientEvent → ClientState
  | .submit => { s with isSubmitting := true, error := "" }
  | .okResponse => { s with isSubmitted := true, isSubmitting := false }
  | .failResponse =>
    { s with error := "Something went wrong. Please try again or email us directly.",
             isSubmitting := false }
  | .reset => { s with isSubmitted := false, formData := { email := "", message := "" } }

/-- The `idle` state of the specification's machine: no request in
flight and no success view shown (the form is rendered and the submit
button enabled). -/
def isIdle (s : ClientState) : Bool :=
  !s.isSubmitting && !s.isSubmitted

/-- The `submitting` state: a request is in flight (`isSubmitting`), the
success view not yet shown. -/
def inSubmitting (s : ClientState) : Bool :=
  s.isSubmitting && !s.isSubmitted

/-- The `submitted` state: the success view is rendered (`isSubmitted`),
no request in flight. -/
def inSubmitted (s : ClientState) : Bool :=
  s.isSubmitted && !s.isSubmitting

/-- Whether a JSON value is a string.  The handler never checks this:
its two tests are truthiness and the coerced regex test, so a truthy
non-string `email` reaches the regex test through string coercion. -/
def isStringValue : Json → Bool
  | .str _ => true
  | _ => false

/-- A character admitted by the `[^\s@]` class of the email regex:
neither JavaScript whitespace nor `@`. -/
def goodChar (c : Char) : Bool :=
  !isJsWhitespace c && !(c == '@')

/-- The language of the regex `^[^\s@]+@[^\s@]+\.[^\s@]+$` stated
directly as a decomposition, following the shape of the pattern: a
non-empty run of `[^\s@]` characters, one `@`, a non-empty run, one `.`,
and a final non-empty run.  `emailTest_iff_emailSpecMatch` proves the
executable matcher recognises exactly this language. -/
def emailSpecMatch (s : String) : Prop :=
  ∃ a b c : List Char,
    a ≠ [] ∧ b ≠ [] ∧ c ≠ [] ∧
    (∀ x ∈ a, goodChar x = true) ∧
    (∀ x ∈ b, goodChar x = true) ∧
    (∀ x ∈ c, goodChar x = true) ∧
    s.data = a ++ '@' :: (b ++ '.' :: c)

/-- Unfolding the handler once the `data.email` read is known: the body
parsed, the field read did not throw, and the three-way branch on the
field value remains. -/
theorem POST_json_eq (d : Json) (v : Option Json)
    (h : jsGetField d "email" = Except.ok v) :
    POST (Body.json d) =
      if !jsTruthyOpt v then
        ⟨400, "application/json", .obj [("error", .str "Email address is required")]⟩
      else if !emailTest (jsToStringOpt v) then
        ⟨400, "application/json", .obj [("error", .str "Please enter a valid email address")]⟩
      else
        ⟨200, "application/json",
          .obj [("success", .bool true),
                ("message", .str "Thank you for your interest! We will get back to you soon.")]⟩ := by
  simp only [POST, h]

/-- A string accepted by the email regex is in particular non-empty, so
it is truthy. -/
theorem emailTest_true_ne_empty {e : String} (h : emailTest e = true) :
    (e == "") = false := by
  cases he : (e == "") with
  | false => rfl
  | true => exact absurd ((eq_of_beq he) ▸ h) (by decide)

/-- C1: every request body whose `email` field is a string that fails
the pattern `^[^\s@]+@[^\s@]+\.[^\s@]+$` (including the empty string) is
answered with HTTP 400 and a JSON error body. -/
theorem contact_invalid_email_returns_400 (d : Json) (e : String)
    (hget : jsGetField d "email" = Except.ok (some (Json.str e)))
    (hfail : emailTest e = false) :
    (POST (Body.json d)).status = 400 ∧
    ∃ msg, (POST (Body.json d)).body = Json.obj [("error", Json.str msg)] := by
  rw [POST_json_eq d _ hget]
  by_cases he : (e == "") = true
  · simp [jsTruthyOpt, jsTruthy, he]
  · simp only [Bool.not_eq_true] at he
    simp [jsTruthyOpt, jsTruthy, he, jsToStringOpt, jsToString, hfail]

/-- C1 witness: the concrete body `{"email": "notanemail"}` is rejected
with status 400 and an error object. -/
theorem contact_invalid_email_returns_400_witness :
    (POST (Body.json (Json.obj [("email", Json.str "notanemail")]))).status = 400 ∧
    ∃ msg, (POST (Body.json (Json.obj [("email", Json.str "notanemail")]))).body =
      Json.obj [("error", Json.str msg)] :=
  contact_invalid_email_returns_400 _ "notanemail" rfl (by decide)

/-- C2: every request body whose `email` field is a string matching the
pattern is answered with HTTP 200 and the fixed acknowledgement body
`{"success": true, "message": ...}`, whether or not a `message` field is
present. -/
theorem contact_valid_email_returns_200 (d : Json) (e : String)
    (hget : jsGetField d "email" = Except.ok (some (Json.str e)))
    (hok : emailTest e = true) :
    POST (Body.json d) =
      ⟨200, "application/json",
        Json.obj [("success", Json.bool true),
          ("message", Json.str "Thank you for your interest! We will get back to you soon.")]⟩ := by
  rw [POST_json_eq d _ hget]
  simp [jsTruthyOpt, jsTruthy, emailTest_true_ne_empty hok, jsToStringOpt, jsToString, hok]

/-- C2 witness: the concrete body `{"email": "test@example.com"}`, with
no message, is answered with status 200, `success: true` and the
acknowledgement string. -/
theorem contact_valid_email_returns_200_witness :
    POST (Body.json (Json.obj [("email", Json.str "test@example.com")])) =
      ⟨200, "application/json",
        Json.obj [("success", Json.bool true),
          ("message", Json.str "Thank you for your interest! We will get back to you soon.")]⟩ :=
  contact_valid_email_returns_200 _ "test@example.com" rfl (by decide)

/-- C3: every request body with no `email` field (the read yields
`undefined`) is answered with HTTP 400 and the JSON error body
`{"error": "Email address is required"}`. -/
theorem contact_missing_email_returns_400 (d : Json)
    (hget : jsGetField d "email" = Except.ok none) :
    POST (Body.json d) =
      ⟨400, "application/json",
        Json.obj [("error", Json.str "Email address is required")]⟩ := by
  rw [POST_json_eq d _ hget]
  simp [jsTruthyOpt]

/-- C3 witness: the concrete body `{"message": "hi"}`, which has no
`email` field, is rejected with the required-email error. -/
theorem contact_missing_email_returns_400_witness :
    POST (Body.json (Json.obj [("message", Json.str "hi")])) =
      ⟨400, "application/json",
        Json.obj [("error", Json.str "Email address is required")]⟩ :=
  contact_missing_email_returns_400 _ rfl

/-- C4: every request whose handling raises an exception inside the
`try` block — a body that fails to parse as JSON, or a `null` body whose
`data.email` read throws — is answered with HTTP 500 and the JSON body
`{"error": "Internal server error"}`; since `POST` is a total function
into `ContactResponse`, no exception escapes the handler. -/
theorem contact_exception_returns_500 (b : Body)
    (h : requestThrows b = true) :
    POST b =
      ⟨500, "application/json",
        Json.obj [("error", Json.str "Internal server error")]⟩ := by
  cases b with
  | malformed => rfl
  | json d =>
    cases hd : jsGetField d "email" with
    | error u => cases u; simp [POST, hd]
    | ok v => simp [requestThrows, hd] at h

/-- C4 witness: a raw body that is not valid JSON is answered with the
generic 500 error. -/
theorem contact_exception_returns_500_witness :
    POST Body.malformed =
      ⟨500, "application/json",
        Json.obj [("error", Json.str "Internal server error")]⟩ :=
  contact_exception_returns_500 Body.malformed rfl

/-- C5: the Submission Client machine makes exactly the four specified
transitions: from `idle`, `submit` reaches `submitting`; from
`submitting`, an ok response reaches `submitted`; from `submitting`, a
non-ok response or a network failure returns to an idle-equivalent error
state with both fields unchanged; from `submitted`, the reset action
returns to `idle` with both fields cleared. -/
theorem contactForm_transitions (s : ClientState) :
    (isIdle s = true → inSubmitting (clientStep s .submit) = true) ∧
    (inSubmitting s = true → inSubmitted (clientStep s .okResponse) = true) ∧
    (inSubmitting s = true →
      isIdle (clientStep s .failResponse) = true ∧
      (clientStep s .failResponse).formData = s.formData) ∧
    (inSubmitted s = true →
      isIdle (clientStep s .reset) = true ∧
      (clientStep s .reset).formData = ⟨"", ""⟩) := by
  obtain ⟨fd, sb, sd, er⟩ := s
  refine ⟨?_, ?_, ?_, ?_⟩ <;> intro h <;>
    simp [isIdle, inSubmitting, inSubmitted, clientStep] at h ⊢ <;>
    simp_all

/-- C5 witness: the four transitions at concrete states — submitting
from an idle state, finishing a submitting state both ways, and
resetting a submitted state. -/
theorem contactForm_transitions_witness :
    inSubmitting (clientStep ⟨⟨"a@b.co", "hi"⟩, false, false, ""⟩ .submit) = true ∧
    inSubmitted (clientStep ⟨⟨"a@b.co", "hi"⟩, true, false, ""⟩ .okResponse) = true ∧
    (isIdle (clientStep ⟨⟨"a@b.co", "hi"⟩, true, false, ""⟩ .failResponse) = true ∧
      (clientStep ⟨⟨"a@b.co", "hi"⟩, true, false, ""⟩ .failResponse).formData = ⟨"a@b.co", "hi"⟩) ∧
    (isIdle (clientStep ⟨⟨"a@b.co", "hi"⟩, false, true, ""⟩ .reset) = true ∧
      (clientStep ⟨⟨"a@b.co", "hi"⟩, false, true, ""⟩ .reset).formData = ⟨"", ""⟩) :=
  ⟨(contactForm_transitions ⟨⟨"a@b.co", "hi"⟩, false, false, ""⟩).1 rfl,
   (contactForm_transitions ⟨⟨"a@b.co", "hi"⟩, true, false, ""⟩).2.1 rfl,
   (contactForm_transitions ⟨⟨"a@b.co", "hi"⟩, true, false, ""⟩).2.2.1 rfl,
   (contactForm_transitions ⟨⟨"a@b.co", "hi"⟩, false, true, ""⟩).2.2.2 rfl⟩

/-- C6: from any `submitted` state, whatever field values were
submitted, the reset action yields an `idle` state whose `email` and
`message` fields are both the empty string. -/
theorem contactForm_reset_clears_fields (s : ClientState)
    (h : inSubmitted s = true) :
    isIdle (clientStep s .reset) = true ∧
    (clientStep s .reset).formData.email = "" ∧
    (clientStep s .reset).formData.message = "" := by
  obtain ⟨fd, sb, sd, er⟩ := s
  simp [inSubmitted] at h
  simp [isIdle, clientStep, h]

/-- C6 witness: resetting a concrete submitted state with non-empty
fields clears both fields and lands in `idle`. -/
theorem contactForm_reset_clears_fields_witness :
    isIdle (clientStep ⟨⟨"user@example.com", "thanks"⟩, false, true, ""⟩ .reset) = true ∧
    (clientStep ⟨⟨"user@example.com", "thanks"⟩, false, true, ""⟩ .reset).formData.email = "" ∧
    (clientStep ⟨⟨"user@example.com", "thanks"⟩, false, true, ""⟩ .reset).formData.message = "" :=
  contactForm_reset_clears_fields ⟨⟨"user@example.com", "thanks"⟩, false, true, ""⟩ rfl

/-- Reading the `email` field of a form-shaped body always succeeds and
yields the email value, whether or not a message is present. -/
theorem jsGetField_mkBody_email (e : Json) (m : Option Json) :
    jsGetField (mkBody e m) "email" = Except.ok (some e) := by
  cases m <;> rfl

/-- C7: the handler is stateless and deterministic: a batch of requests
is answered element-wise, so submitting the same valid payload twice
yields two equal HTTP 200 responses, and surrounding requests neither
observe nor influence the answer. -/
theorem contact_valid_payload_idempotent (d : Json) (e : String)
    (hget : jsGetField d "email" = Except.ok (some (Json.str e)))
    (hok : emailTest e = true) :
    serve [Body.json d, Body.json d] = [POST (Body.json d), POST (Body.json d)] ∧
    (POST (Body.json d)).status = 200 ∧
    ∀ before after : List Body,
      serve (before ++ Body.json d :: after) =
        serve before ++ POST (Body.json d) :: serve after := by
  refine ⟨rfl, ?_, ?_⟩
  · rw [POST_json_eq d _ hget]
    simp [jsTruthyOpt, jsTruthy, emailTest_true_ne_empty hok, jsToStringOpt, jsToString, hok]
  · intro before after
    simp [serve]

/-- C7 witness: the concrete valid payload `{"email": "dup@example.com"}`
submitted twice yields two equal 200 responses, and a preceding
malformed request does not change its answer. -/
theorem contact_valid_payload_idempotent_witness :
    serve [Body.json (Json.obj [("email", Json.str "dup@example.com")]),
           Body.json (Json.obj [("email", Json.str "dup@example.com")])] =
      [POST (Body.json (Json.obj [("email", Json.str "dup@example.com")])),
       POST (Body.json (Json.obj [("email", Json.str "dup@example.com")]))] ∧
    (POST (Body.json (Json.obj [("email", Json.str "dup@example.com")]))).status = 200 ∧
    serve ([Body.malformed] ++ Body.json (Json.obj [("email", Json.str "dup@example.com")]) :: []) =
      serve [Body.malformed] ++
        POST (Body.json (Json.obj [("email", Json.str "dup@example.com")])) :: serve [] :=
  ⟨(contact_valid_payload_idempotent (Json.obj [("email", Json.str "dup@example.com")])
      "dup@example.com" rfl (by decide)).1,
   (contact_valid_payload_idempotent (Json.obj [("email", Json.str "dup@example.com")])
      "dup@example.com" rfl (by decide)).2.1,
   (contact_valid_payload_idempotent (Json.obj [("email", Json.str "dup@example.com")])
      "dup@example.com" rfl (by decide)).2.2 [Body.malformed] []⟩

/-- C8: with a valid email, the response is HTTP 200 and is identical
whatever the `message` field holds — any string of any length, any other
JSON value, or no message at all; the message never influences the
response. -/
theorem contact_message_no_influence (e msg : String) (other : Option Json)
    (hok : emailTest e = true) :
    (POST (Body.json (mkBody (Json.str e) (some (Json.str msg))))).status = 200 ∧
    POST (Body.json (mkBody (Json.str e) (some (Json.str msg)))) =
      POST (Body.json (mkBody (Json.str e) other)) := by
  rw [POST_json_eq _ _ (jsGetField_mkBody_email (Json.str e) (some (Json.str msg))),
      POST_json_eq _ _ (jsGetField_mkBody_email (Json.str e) other)]
  constructor
  · simp [jsTruthyOpt, jsTruthy, emailTest_true_ne_empty hok, jsToStringOpt, jsToString, hok]
  · rfl

/-- C8 witness: `{"email": "test@example.com", "message": "Hello"}` gets
status 200 and the same response as the same email with no message. -/
theorem contact_message_no_influence_witness :
    (POST (Body.json (mkBody (Json.str "test@example.com")
      (some (Json.str "Hello"))))).status = 200 ∧
    POST (Body.json (mkBody (Json.str "test@example.com") (some (Json.str "Hello")))) =
      POST (Body.json (mkBody (Json.str "test@example.com") none)) :=
  contact_message_no_influence "test@example.com" "Hello" none (by decide)

/-- C9: every response of the handler has status 200, 400 or 500,
carries `Content-Type: application/json`, and its body is either
`{"success": true, "message": <string>}` (exactly on status 200) or
`{"error": <string>}` (on status 400 or 500). -/
theorem contact_response_shape (b : Body) :
    ((POST b).status = 200 ∨ (POST b).status = 400 ∨ (POST b).status = 500) ∧
    (POST b).contentType = "application/json" ∧
    (((POST b).status = 200 ∧
      ∃ m, (POST b).body = Json.obj [("success", Json.bool true), ("message", Json.str m)]) ∨
     (((POST b).status = 400 ∨ (POST b).status = 500) ∧
      ∃ msg, (POST b).body = Json.obj [("error", Json.str msg)])) := by
  cases b with
  | malformed =>
    exact ⟨Or.inr (Or.inr rfl), rfl, Or.inr ⟨Or.inr rfl, "Internal server error", rfl⟩⟩
  | json d =>
    cases hd : jsGetField d "email" with
    | error u =>
      have hp : POST (Body.json d) =
          ⟨500, "application/json",
            Json.obj [("error", Json.str "Internal server error")]⟩ := by
        simp only [POST, hd]
      rw [hp]
      exact ⟨Or.inr (Or.inr rfl), rfl, Or.inr ⟨Or.inr rfl, "Internal server error", rfl⟩⟩
    | ok v =>
      rw [POST_json_eq d v hd]
      cases h1 : (!jsTruthyOpt v) with
      | true =>
        rw [if_pos rfl]
        exact ⟨Or.inr (Or.inl rfl), rfl,
          Or.inr ⟨Or.inl rfl, "Email address is required", rfl⟩⟩
      | false =>
        rw [if_neg (by simp)]
        cases h2 : (!emailTest (jsToStringOpt v)) with
        | true =>
          rw [if_pos rfl]
          exact ⟨Or.inr (Or.inl rfl), rfl,
            Or.inr ⟨Or.inl rfl, "Please enter a valid email address", rfl⟩⟩
        | false =>
          rw [if_neg (by simp)]
          exact ⟨Or.inl rfl, rfl,
            Or.inl ⟨rfl, "Thank you for your interest! We will get back to you soon.", rfl⟩⟩

/-- C10 counterexample: the body `{"email": 123}` carries a truthy
`email` that is not a string, yet the handler returns the
malformed-email body — `emailRegex.test(123)` coerces the number to
`"123"`, which fails the pattern — so the malformed-email body is not
returned only for non-empty string emails. -/
theorem contact_email_branch_counterexample :
    POST (Body.json (Json.obj [("email", Json.num 123)])) =
      ⟨400, "application/json",
        Json.obj [("error", Json.str "Please enter a valid email address")]⟩ ∧
    isStringValue (Json.num 123) = false := by
  constructor
  · rw [POST_json_eq (Json.obj [("email", Json.num 123)]) (some (Json.num 123)) rfl]
    have h : emailTest (jsToStringOpt (some (Json.num 123))) = false := by decide
    rw [if_neg (by decide), if_pos (by rw [h]; rfl)]
  · rfl

/-- C10 amended: a falsy `email` value (absent is covered by C3; here
the empty string, `null`, `0` or `false`) takes the missing-email branch
and yields `{"error": "Email address is required"}`; the malformed-email
body `{"error": "Please enter a valid email address"}` is returned
exactly for truthy `email` values — strings or not — whose JavaScript
string coercion fails the pattern. -/
theorem contact_email_branch_selection (d : Json) (v : Json)
    (hget : jsGetField d "email" = Except.ok (some v)) :
    (jsTruthy v = false →
      POST (Body.json d) =
        ⟨400, "application/json",
          Json.obj [("error", Json.str "Email address is required")]⟩) ∧
    (jsTruthy v = true → emailTest (jsToString v) = false →
      POST (Body.json d) =
        ⟨400, "application/json",
          Json.obj [("error", Json.str "Please enter a valid email address")]⟩) ∧
    ((POST (Body.json d)).body =
        Json.obj [("error", Json.str "Please enter a valid email address")] →
      jsTruthy v = true ∧ emailTest (jsToString v) = false) := by
  refine ⟨?_, ?_, ?_⟩
  · intro hf
    rw [POST_json_eq d _ hget]
    simp [jsTruthyOpt, hf]
  · intro ht hf
    rw [POST_json_eq d _ hget]
    simp [jsTruthyOpt, ht, jsToStringOpt, hf]
  · intro hb
    rw [POST_json_eq d _ hget] at hb
    cases ht : jsTruthy v with
    | false =>
      exfalso
      rw [if_pos (by simp [jsTruthyOpt, ht])] at hb
      simp at hb
    | true =>
      refine ⟨rfl, ?_⟩
      cases hf : emailTest (jsToString v) with
      | false => rfl
      | true =>
        exfalso
        rw [if_neg (by simp [jsTruthyOpt, ht]),
            if_neg (by simp [jsToStringOpt, hf])] at hb
        simp at hb

/-- C10 witness for the amended claim: the falsy email `""` takes the
missing-email branch, the truthy non-string email `true` (coerced to
`"true"`) takes the malformed-email branch, and from the malformed-email
body at `{"email": 5}` the amended converse recovers truthiness and
pattern failure. -/
theorem contact_email_branch_selection_witness :
    POST (Body.json (Json.obj [("email", Json.str "")])) =
      ⟨400, "application/json",
        Json.obj [("error", Json.str "Email address is required")]⟩ ∧
    POST (Body.json (Json.obj [("email", Json.bool true)])) =
      ⟨400, "application/json",
        Json.obj [("error", Json.str "Please enter a valid email address")]⟩ ∧
    (jsTruthy (Json.num 5) = true ∧ emailTest (jsToString (Json.num 5)) = false) :=
  ⟨(contact_email_branch_selection (Json.obj [("email", Json.str "")])
      (Json.str "") rfl).1 rfl,
   (contact_email_branch_selection (Json.obj [("email", Json.bool true)])
      (Json.bool true) rfl).2.1 rfl (by decide),
   (contact_email_branch_selection (Json.obj [("email", Json.num 5)])
      (Json.num 5) rfl).2.2 rfl⟩

/-- The split of a character list on `'@'` is never the empty list of
groups. -/
theorem splitOnAmp_ne_nil (l : List Char) : splitOnAmp l ≠ [] := by
  cases l with
  | nil => simp [splitOnAmp]
  | cons c rest =>
    cases h : splitOnAmp rest with
    | nil => cases hc : (c == '@') <;> simp [splitOnAmp, h, hc]
    | cons g gs => cases hc : (c == '@') <;> simp [splitOnAmp, h, hc]

/-- A one-group split means the list holds no `'@'` at all. -/
theorem splitOnAmp_single (l x : List Char) (h : splitOnAmp l = [x]) :
    l = x ∧ '@' ∉ x := by
  induction l generalizing x with
  | nil =>
    have hx : x = [] := by simpa [splitOnAmp] using h.symm
    subst hx
    exact ⟨rfl, by simp⟩
  | cons c rest ih =>
    cases hr : splitOnAmp rest with
    | nil => exact absurd hr (splitOnAmp_ne_nil rest)
    | cons g gs =>
      cases hc : (c == '@') with
      | true => simp [splitOnAmp, hr, hc] at h
      | false =>
        simp only [splitOnAmp, hr, hc] at h
        simp only [Bool.false_eq_true, if_false, List.cons.injEq] at h
        obtain ⟨h1, h2⟩ := h
        have hsr : splitOnAmp rest = [g] := by rw [hr, h2]
        obtain ⟨e1, e2⟩ := ih g hsr
        have hcne : c ≠ '@' := fun e => by simp [e] at hc
        subst h1
        constructor
        · rw [e1]
        · simp only [List.mem_cons, not_or]
          exact ⟨fun e => hcne e.symm, e2⟩

/-- A two-group split is exactly a decomposition at the unique `'@'`. -/
theorem splitOnAmp_pair (l l₁ l₂ : List Char) (h : splitOnAmp l = [l₁, l₂]) :
    l = l₁ ++ '@' :: l₂ ∧ '@' ∉ l₁ ∧ '@' ∉ l₂ := by
  induction l generalizing l₁ with
  | nil => simp [splitOnAmp] at h
  | cons c rest ih =>
    cases hr : splitOnAmp rest with
    | nil => exact absurd hr (splitOnAmp_ne_nil rest)
    | cons g gs =>
      cases hc : (c == '@') with
      | true =>
        have hceq : c = '@' := eq_of_beq hc
        simp only [splitOnAmp, hr, hc, if_true, List.cons.injEq] at h
        obtain ⟨h1, h2, h3⟩ := h
        have hsingle := splitOnAmp_single rest l₂ (by rw [hr, h2, h3])
        subst h1
        refine ⟨?_, by simp, hsingle.2⟩
        rw [hceq, hsingle.1]
        rfl
      | false =>
        simp only [splitOnAmp, hr, hc] at h
        simp only [Bool.false_eq_true, if_false, List.cons.injEq] at h
        obtain ⟨h1, h2⟩ := h
        have hpair : splitOnAmp rest = [g, l₂] := by rw [hr, h2]
        obtain ⟨e1, e2, e3⟩ := ih g hpair
        have hcne : c ≠ '@' := fun e => by simp [e] at hc
        subst h1
        refine ⟨?_, ?_, e3⟩
        · rw [e1]
          rfl
        · simp only [List.mem_cons, not_or]
          exact ⟨fun e => hcne e.symm, e2⟩

/-- A list without `'@'` splits into the single group it is. -/
theorem splitOnAmp_no_amp (l : List Char) (h : '@' ∉ l) : splitOnAmp l = [l] := by
  induction l with
  | nil => rfl
  | cons c rest ih =>
    simp only [List.mem_cons, not_or] at h
    have hc : (c == '@') = false := by
      cases hcc : (c == '@') with
      | false => rfl
      | true => exact absurd (eq_of_beq hcc).symm h.1
    simp [splitOnAmp, ih h.2, hc]

/-- Prepending `'@'`-free characters extends the first group of a
split. -/
theorem splitOnAmp_append_no_amp (a : List Char) (ha : '@' ∉ a)
    (l g : List Char) (gs : List (List Char)) (h : splitOnAmp l = g :: gs) :
    splitOnAmp (a ++ l) = (a ++ g) :: gs := by
  induction a with
  | nil => simpa using h
  | cons c a ih =>
    simp only [List.mem_cons, not_or] at ha
    have hc : (c == '@') = false := by
      cases hcc : (c == '@') with
      | false => rfl
      | true => exact absurd (eq_of_beq hcc).symm ha.1
    simp [splitOnAmp, ih ha.2, hc]

/-- The right part of the split has a `'.'` strictly inside it exactly
when it decomposes as a non-empty prefix, one `'.'`, and a non-empty
suffix — the `[^\s@]+\.[^\s@]+` half of the pattern, up to the character
class checked separately. -/
theorem interior_dot_iff (r : List Char) :
    ((r.drop 1).dropLast.contains '.') = true ↔
      ∃ b c : List Char, b ≠ [] ∧ c ≠ [] ∧ r = b ++ '.' :: c := by
  constructor
  · intro h
    have hmem : '.' ∈ (r.drop 1).dropLast := List.elem_iff.mp h
    cases r with
    | nil => simp at hmem
    | cons r₀ rest =>
      have h' : '.' ∈ rest.dropLast := by simpa using hmem
      obtain ⟨s, t, hst⟩ := List.append_of_mem h'
      have hrest : rest ≠ [] := by
        rintro rfl
        simp at h'
      obtain ⟨k, hk⟩ : ∃ k, rest.dropLast ++ [k] = rest :=
        ⟨rest.getLast hrest, List.dropLast_concat_getLast hrest⟩
      have hre : rest = s ++ '.' :: (t ++ [k]) := by
        conv_lhs => rw [← hk]
        rw [hst]
        simp
      exact ⟨r₀ :: s, t ++ [k], by simp, by simp, by rw [hre]; rfl⟩
  · rintro ⟨b, c, hb, hc, rfl⟩
    obtain ⟨b₀, bs, rfl⟩ := List.exists_cons_of_ne_nil hb
    obtain ⟨c₀, cs, rfl⟩ := List.exists_cons_of_ne_nil hc
    have h1 : ((b₀ :: bs) ++ '.' :: c₀ :: cs).drop 1 = bs ++ '.' :: c₀ :: cs := by
      simp
    rw [h1]
    have h2 : (bs ++ '.' :: c₀ :: cs).dropLast = bs ++ '.' :: (c₀ :: cs).dropLast := by
      rw [List.dropLast_append_of_ne_nil bs (by simp), List.dropLast_cons₂]
    rw [h2]
    apply List.elem_iff.mpr
    exact List.mem_append.mpr (Or.inr (List.mem_cons_self _ _))

/-- The executable matcher recognises exactly the language of the regex
stated as a decomposition: `emailTest` and the declarative
`emailSpecMatch` agree on every string. -/
theorem emailTest_iff_emailSpecMatch (s : String) :
    emailTest s = true ↔ emailSpecMatch s := by
  constructor
  · intro h
    unfold emailTest at h
    cases hsp : splitOnAmp s.data with
    | nil => exact absurd hsp (splitOnAmp_ne_nil _)
    | cons l rest =>
      rw [hsp] at h
      cases rest with
      | nil => simp at h
      | cons r rest2 =>
        cases rest2 with
        | cons x xs => simp at h
        | nil =>
          simp only [Bool.and_eq_true, Bool.not_eq_true', List.isEmpty_eq_false,
            List.all_eq_true] at h
          obtain ⟨⟨⟨⟨hl, hwl⟩, hr⟩, hwr⟩, hdot⟩ := h
          obtain ⟨hdec, hna1, hna2⟩ := splitOnAmp_pair s.data l r hsp
          obtain ⟨b, c, hb, hc, hrbc⟩ := (interior_dot_iff r).mp hdot
          refine ⟨l, b, c, hl, hb, hc, ?_, ?_, ?_, ?_⟩
          · intro x hx
            have hxa : x ≠ '@' := fun e => hna1 (e ▸ hx)
            simp [goodChar, hwl x hx, beq_eq_false_iff_ne, hxa]
          · intro x hx
            have hxr : x ∈ r := by
              rw [hrbc]
              exact List.mem_append.mpr (Or.inl hx)
            have hxa : x ≠ '@' := fun e => hna2 (e ▸ hxr)
            simp [goodChar, hwr x hxr, beq_eq_false_iff_ne, hxa]
          · intro x hx
            have hxr : x ∈ r := by
              rw [hrbc]
              exact List.mem_append.mpr (Or.inr (List.mem_cons_of_mem _ hx))
            have hxa : x ≠ '@' := fun e => hna2 (e ▸ hxr)
            simp [goodChar, hwr x hxr, beq_eq_false_iff_ne, hxa]
          · rw [hdec, hrbc]
  · rintro ⟨a, b, c, ha, hb, hc, hga, hgb, hgc, heq⟩
    have hna : '@' ∉ a := by
      intro hx
      have := hga '@' hx
      simp [goodChar] at this
    have hnr : '@' ∉ b ++ '.' :: c := by
      intro hx
      rcases List.mem_append.mp hx with hx | hx
      · have := hgb '@' hx
        simp [goodChar] at this
      · rcases List.mem_cons.mp hx with e | hx
        · exact absurd e (by decide)
        · have := hgc '@' hx
          simp [goodChar] at this
    have h1 : splitOnAmp (b ++ '.' :: c) = [b ++ '.' :: c] :=
      splitOnAmp_no_amp _ hnr
    have h2 : splitOnAmp ('@' :: (b ++ '.' :: c)) = [[], b ++ '.' :: c] := by
      simp [splitOnAmp, h1]
    have hsp : splitOnAmp s.data = [a, b ++ '.' :: c] := by
      rw [heq]
      have := splitOnAmp_append_no_amp a hna _ [] [b ++ '.' :: c] h2
      simpa using this
    unfold emailTest
    rw [hsp]
    simp only [Bool.and_eq_true, Bool.not_eq_true', List.isEmpty_eq_false,
      List.all_eq_true]
    refine ⟨⟨⟨⟨ha, ?_⟩, by simp⟩, ?_⟩, (interior_dot_iff _).mpr ⟨b, c, hb, hc, rfl⟩⟩
    · intro x hx
      have := hga x hx
      simp only [goodChar, Bool.and_eq_true] at this
      simpa using this.1
    · intro x hx
      rcases List.mem_append.mp hx with hx | hx
      · have := hgb x hx
        simp only [goodChar, Bool.and_eq_true] at this
        simpa using this.1
      · rcases List.mem_cons.mp hx with e | hx
        · subst e
          decide
        · have := hgc x hx
          simp only [goodChar, Bool.and_eq_true] at this
          simpa using this.1
